import Mathlib

/-!
Shallow embedding of the neubot-runtime socket-setup helpers
(`neubot_runtime/utils_net.py`) and the flat-file configuration parser
(`neubot_runtime/utils_rc.py`).

System calls (getaddrinfo, socket creation, setsockopt, bind, listen,
connect_ex, getpeername, recv) are modelled as an explicit environment
that fixes each call's outcome; the file-descriptor bookkeeping is an
explicit state (allocated, open and closed descriptors).  Errno values
use their Linux numbers (EINPROGRESS = 115, EWOULDBLOCK = EAGAIN = 11,
ENOTCONN = 107, EINVAL = 22).  Debug-level diagnostics are omitted from
the log model; warning- and error-level messages are kept verbatim.
-/

namespace NeubotRuntime

/-- A Python `socket.error`: `args[0]` is the errno, `args[1]` the message. -/
structure SockErr where
  errnoV : Nat
  msg : String
deriving DecidableEq

/-- Address family of a resolved candidate (`ainfo[0]`). -/
inductive Fam
  | inet
  | inet6
  | other (n : Nat)
deriving DecidableEq

/-- One entry returned by `socket.getaddrinfo`:
`(family, socktype, proto, canonname, sockaddr)`. -/
structure AddrInfo where
  family : Fam
  socktype : Nat
  proto : Nat
  canonname : String
  sockaddr : String
deriving DecidableEq

/-- Uncaught Python exceptions that can cross `listen`/`connect`'s boundary
in this model: the `KeyError` raised by `addrinfo_key` during sorting. -/
inductive PyErr
  | keyError
deriving DecidableEq

/-- Log lines at warning and error severity (debug lines are omitted). -/
inductive LogEntry
  | warning (msg : String)
  | error (msg : String)
deriving DecidableEq

/-- File-descriptor bookkeeping: next descriptor to hand out, descriptors
currently open, and descriptors that have been explicitly closed. -/
structure NetState where
  nextFd : Nat
  openFds : List Nat
  closedFds : List Nat
deriving DecidableEq

/-- Initial descriptor state for one call. -/
def initState : NetState := ⟨0, [], []⟩

/-- `socket.socket(...)` succeeding: allocate the next file descriptor. -/
def allocFd (s : NetState) : Nat × NetState :=
  (s.nextFd, ⟨s.nextFd + 1, s.openFds ++ [s.nextFd], s.closedFds⟩)

/-! ### Python string primitives

Python strings are sequences of characters; `startswith`, `in` and slicing
are modelled on the underlying character list. -/

/-- Python `s.startswith(pre)`. -/
def pyStartsWith (s pre : String) : Bool := List.isPrefixOf pre.data s.data

/-- Python `s[n:]`. -/
def pyDrop (s : String) (n : Nat) : String := ⟨s.data.drop n⟩

/-- Python `c in s` for a single character. -/
def pyContains (s : String) (c : Char) : Bool := s.data.contains c

/-! ### Formatting (`format_epnt`, lines 16-23) -/

/-- `format_epnt(epnt)`: `':'.join([address, str(port)])`, with the address
wrapped as `''.join(['[', address, ']'])` when it contains a colon. -/
def format_epnt (epnt : String × Nat) : String :=
  (if pyContains epnt.1 ':' then "[" ++ epnt.1 ++ "]" else epnt.1)
    ++ ":" ++ toString epnt.2

/-! ### Address normalization (`__strip_ipv4mapped_prefix1`, lines 206-214) -/

/-- The transformation `__strip_ipv4mapped_prefix1` applies to `result[0]`:
strip a leading `'::ffff:'`; failing that strip a leading `'::'` unless the
string is exactly `'::1'`. -/
def strip_ipv4mapped_addr (s : String) : String :=
  if pyStartsWith s "::ffff:" then pyDrop s 7
  else if pyStartsWith s "::" ∧ s ≠ "::1" then pyDrop s 2
  else s

/-- `__strip_ipv4mapped_prefix1(result)` on an `(address, port)` pair:
rebuild the tuple with the address component normalized. -/
def strip_ipv4mapped_prefix1 (result : String × Nat) : String × Nat :=
  (strip_ipv4mapped_addr result.1, result.2)

/-! ### Family preference key (`COMPARE_AF` / `addrinfo_key`, lines 67-75) -/

/-- `COMPARE_AF`: dictionary mapping `AF_INET` to 1 and `AF_INET6` to 2;
lookup of any other family raises `KeyError` (modelled as `none`). -/
def COMPARE_AF : Fam → Option Nat
  | Fam.inet => some 1
  | Fam.inet6 => some 2
  | Fam.other _ => none

/-- `addrinfo_key(ainfo)`: `COMPARE_AF[ainfo[0]]`. -/
def addrinfo_key (a : AddrInfo) : Option Nat := COMPARE_AF a.family

/-- The key value actually compared during sorting (only used on entries
whose key lookup succeeded). -/
def keyOrDefault (a : AddrInfo) : Nat := (addrinfo_key a).getD 0

/-! ### Python's stable sort

`list.sort(key=..., reverse=...)` is a stable sort under a total preorder,
so any stable sort computes the same output; we use a stable insertion
sort.  An element is inserted before the first element it may precede. -/

/-- Stable insertion: place `x` before the first `y` with `c x y = true`. -/
def pyIns {α : Type} (c : α → α → Bool) (x : α) : List α → List α
  | [] => [x]
  | y :: ys => if c x y then x :: y :: ys else y :: pyIns c x ys

/-- Stable insertion sort with comparator `c` (`c x y`: `x` may sit before
`y`, i.e. non-strict "less or equal" in the requested order). -/
def pySort {α : Type} (c : α → α → Bool) : List α → List α
  | [] => []
  | x :: xs => pyIns c x (pySort c xs)

/-- The comparator induced by `key=addrinfo_key` with the given `reverse`
flag: ascending on the key, descending when `reverse` is true. -/
def sortCmp (reverse : Bool) (a b : AddrInfo) : Bool :=
  if reverse then decide (keyOrDefault b ≤ keyOrDefault a)
  else decide (keyOrDefault a ≤ keyOrDefault b)

/-- `addrinfo.sort(key=addrinfo_key, reverse=reverse)`: computing the key of
an entry whose family is not in `COMPARE_AF` raises `KeyError`; otherwise
the list is stably sorted on the key. -/
def pySortByKey (reverse : Bool) (l : List AddrInfo) : Except PyErr (List AddrInfo) :=
  if l.all (fun a => (addrinfo_key a).isSome) then
    Except.ok (pySort (sortCmp reverse) l)
  else Except.error PyErr.keyError

/-! ### `listen(epnt)` (lines 77-128) -/

/-- Outcome of `sock.setsockopt(IPPROTO_IPV6, IPV6_V6ONLY, 1)`: success,
`AttributeError` (the constant is missing on this platform; swallowed by
the inner `except AttributeError: pass`), or a `socket.error` (which the
outer handler catches, abandoning the candidate). -/
inductive V6OnlyRes
  | ok
  | attrError
  | sockError
deriving DecidableEq

/-- Environment for one candidate attempt of the `listen` loop: which of
the fallible calls in the `try` block succeed. -/
structure LAttempt where
  createOk : Bool
  reuseOk : Bool
  v6only : V6OnlyRes
  bindOk : Bool
  listenOk : Bool

/-- Environment of one `listen` call: the `getaddrinfo` outcome and the
per-attempt outcomes (indexed by attempt position in trial order). -/
structure ListenEnv where
  gai : Except SockErr (List AddrInfo)
  att : Nat → LAttempt

/-- One iteration of the `listen` loop's `try` block for a candidate of
family `fam`: create, `SO_REUSEADDR`, optional `IPV6_V6ONLY`,
`setblocking(False)`, `bind`, `listen(128)`.  Returns the new socket on
success, `none` on a caught failure; either way the descriptor state
records any socket that was created (the source closes nothing). -/
def listenAttempt (e : LAttempt) (fam : Fam) (s : NetState) : Option Nat × NetState :=
  if e.createOk = false then (none, s)
  else if e.reuseOk = false then (none, (allocFd s).2)
  else if fam = Fam.inet6 ∧ e.v6only = V6OnlyRes.sockError then (none, (allocFd s).2)
  else if e.bindOk = false then (none, (allocFd s).2)
  else if e.listenOk = false then (none, (allocFd s).2)
  else (some (allocFd s).1, (allocFd s).2)

/-- Result of running the `listen` loop: sockets accumulated, final
descriptor state, candidates attempted in order, warnings logged. -/
structure ListenLoopOut where
  socks : List Nat
  state : NetState
  trace : List AddrInfo
  log : List LogEntry
deriving DecidableEq

/-- The `for ainfo in addrinfo` loop of `listen`: every candidate is
attempted; a failed attempt logs `'listen... error'` and continues. -/
def listenLoop (att : Nat → LAttempt) : List AddrInfo → Nat → NetState → ListenLoopOut
  | [], _, s => ⟨[], s, [], []⟩
  | a :: rest, idx, s =>
    match listenAttempt (att idx) a.family s with
    | (some fd, s1) =>
      let r := listenLoop att rest (idx + 1) s1
      ⟨fd :: r.socks, r.state, a :: r.trace, r.log⟩
    | (none, s1) =>
      let r := listenLoop att rest (idx + 1) s1
      ⟨r.socks, r.state, a :: r.trace, LogEntry.warning "listen... error" :: r.log⟩

/-- Full result of a `listen` call: the value returned (or the uncaught
exception), the descriptor state, the candidates attempted, the log. -/
structure ListenOut where
  result : Except PyErr (List Nat)
  state : NetState
  trace : List AddrInfo
  log : List LogEntry

/-- `listen(epnt)`: resolve (a `socket.error` is logged and yields the
empty list), sort candidates with `reverse=True`, try every candidate,
log an error when no socket was bound. -/
def listen (env : ListenEnv) : ListenOut :=
  match env.gai with
  | Except.error _ => ⟨Except.ok [], initState, [], [LogEntry.error "getaddrinfo failed"]⟩
  | Except.ok l =>
    match pySortByKey true l with
    | Except.error e => ⟨Except.error e, initState, [], []⟩
    | Except.ok sorted =>
      let r := listenLoop env.att sorted 0 initState
      ⟨Except.ok r.socks, r.state, r.trace,
        if r.socks.isEmpty then r.log ++ [LogEntry.error "all listen attempts failed"]
        else r.log⟩

/-- Descriptors that were created during the search but are not part of the
returned value: the sockets of the discarded candidates. -/
def ListenOut.abandonedFds (o : ListenOut) : List Nat :=
  match o.result with
  | Except.ok socks => o.state.openFds.filter (fun fd => !(socks.contains fd))
  | Except.error _ => o.state.openFds

/-! ### `connect(epnt, prefer_ipv6)` (lines 130-167) -/

/-- `INPROGRESS = (0, errno.EINPROGRESS, errno.EWOULDBLOCK, errno.EAGAIN)`
with Linux errno numbers (`EWOULDBLOCK` equals `EAGAIN`). -/
def INPROGRESS : List Nat := [0, 115, 11, 11]

/-- Environment for one candidate attempt of the `connect` loop: whether
`socket.socket` succeeds and the code returned by `connect_ex`. -/
structure CAttempt where
  createOk : Bool
  code : Nat

/-- Environment of one `connect` call. -/
structure ConnectEnv where
  gai : Except SockErr (List AddrInfo)
  att : Nat → CAttempt

/-- One iteration of the `connect` loop's `try` block: create the socket,
`setblocking(False)`, `connect_ex`; a code outside `INPROGRESS` raises
`socket.error` (caught by the loop), leaving the socket open. -/
def connectAttempt (e : CAttempt) (s : NetState) : Option Nat × NetState :=
  if e.createOk = false then (none, s)
  else if e.code ∈ INPROGRESS then (some (allocFd s).1, (allocFd s).2)
  else (none, (allocFd s).2)

/-- Result of running the `connect` loop. -/
structure ConnectLoopOut where
  res : Option Nat
  state : NetState
  trace : List AddrInfo
  log : List LogEntry
deriving DecidableEq

/-- The `for ainfo in addrinfo` loop of `connect`: return the first socket
whose connect initiation is in progress; a failed attempt logs
`'connect... error'` and continues. -/
def connectLoop (att : Nat → CAttempt) : List AddrInfo → Nat → NetState → ConnectLoopOut
  | [], _, s => ⟨none, s, [], []⟩
  | a :: rest, idx, s =>
    match connectAttempt (att idx) s with
    | (some fd, s1) => ⟨some fd, s1, [a], []⟩
    | (none, s1) =>
      let r := connectLoop att rest (idx + 1) s1
      ⟨r.res, r.state, a :: r.trace, LogEntry.warning "connect... error" :: r.log⟩

/-- Full result of a `connect` call. -/
structure ConnectOut where
  result : Except PyErr (Option Nat)
  state : NetState
  trace : List AddrInfo
  log : List LogEntry

/-- `connect(epnt, prefer_ipv6)`: resolve (a `socket.error` is logged and
yields `None`), sort candidates with `reverse=prefer_ipv6`, return the
first candidate whose initiation is in progress, else log an error and
return `None`. -/
def connect (env : ConnectEnv) (prefer_ipv6 : Bool) : ConnectOut :=
  match env.gai with
  | Except.error _ => ⟨Except.ok none, initState, [], [LogEntry.error "getaddrinfo failed"]⟩
  | Except.ok l =>
    match pySortByKey prefer_ipv6 l with
    | Except.error e => ⟨Except.error e, initState, [], []⟩
    | Except.ok sorted =>
      let r := connectLoop env.att sorted 0 initState
      match r.res with
      | some fd => ⟨Except.ok (some fd), r.state, r.trace, r.log⟩
      | none => ⟨Except.ok none, r.state, r.trace,
          r.log ++ [LogEntry.error "all connect attempts failed"]⟩

/-- Descriptors created during the search but not returned by `connect`. -/
def ConnectOut.abandonedFds (o : ConnectOut) : List Nat :=
  match o.result with
  | Except.ok (some fd) => o.state.openFds.filter (fun x => !(x == fd))
  | _ => o.state.openFds

/-! ### `isconnected(endpoint, sock)` (lines 169-199) -/

/-- Linux errno numbers used by `isconnected`. -/
def ENOTCONN : Nat := 107

/-- Linux `EINVAL` (the MacOSX `getpeername` quirk). -/
def EINVAL : Nat := 22

/-- Environment of one `isconnected` call: the outcome of `getpeername`
(`none` means it succeeded) and of the probe `recv(1024)`. -/
structure IsConnEnv where
  peer : Option SockErr
  recv : Option SockErr

/-- What an `isconnected` call does: return a boolean, or raise
`RuntimeError`. -/
inductive IsConnRes
  | ret (b : Bool)
  | raisedRuntimeError (msg : String)
deriving DecidableEq

/-- `isconnected(endpoint, sock)`: peer-name success means connected; an
errno outside `(ENOTCONN, EINVAL)` is logged (via `args[0]`) as a failed
connect; otherwise the probe read's error is logged (via `args[1]`) and
a successful probe read raises `RuntimeError`. -/
def isconnected (env : IsConnEnv) : IsConnRes × List LogEntry :=
  match env.peer with
  | none => (IsConnRes.ret true, [])
  | some err =>
    if ¬ (err.errnoV = ENOTCONN ∨ err.errnoV = EINVAL) then
      (IsConnRes.ret false,
        [LogEntry.error ("connect failed (reason: " ++ toString err.errnoV ++ ")")])
    else
      match env.recv with
      | some rerr =>
        (IsConnRes.ret false,
          [LogEntry.error ("connect failed (reason: " ++ rerr.msg ++ ")")])
      | none => (IsConnRes.raisedRuntimeError "isconnected(): internal error", [])

/-! ### Configuration parser (`utils_rc.py`) -/

/-- Python exceptions relevant to `parse`/`parse_safe`: `ValueError` (with
its message), the two re-raised exit exceptions, and any other exception
(with its `str`). -/
inductive PyExc
  | valueError (msg : String)
  | keyboardInterrupt
  | systemExit
  | otherExc (msg : String)
deriving DecidableEq

/-- `str(exc)` for the modelled exceptions (the exit exceptions carry no
message). -/
def PyExc.str : PyExc → String
  | PyExc.valueError m => m
  | PyExc.keyboardInterrupt => ""
  | PyExc.systemExit => ""
  | PyExc.otherExc m => m

/-- Whether the exception is in `(KeyboardInterrupt, SystemExit)`. -/
def PyExc.isExit : PyExc → Bool
  | PyExc.keyboardInterrupt => true
  | PyExc.systemExit => true
  | _ => false

/-- Environment of a `parse` call: the filesystem (`os.path.isfile` and the
lines produced by iterating the opened file) and the external
`shlex.split(line, True)` lexer, which may raise. -/
structure RcEnv where
  isfile : String → Bool
  fileLines : String → List String
  shlexSplit : String → Except PyExc (List String)

/-- Truthiness of an optional string (Python: `None` and `''` are falsy). -/
def truthyS : Option String → Bool
  | none => false
  | some s => !(s == "")

/-- Truthiness of an optional line list (Python: `None` and an empty
sequence are falsy). -/
def truthyL : Option (List String) → Bool
  | none => false
  | some l => !(l.isEmpty)

/-- Python's insertion-ordered `conf[name] = value`. -/
def dictSet (d : List (String × String)) (k v : String) : List (String × String) :=
  if d.any (fun p => p.1 == k) then
    d.map (fun p => if p.1 == k then (k, v) else p)
  else d ++ [(k, v)]

/-- Split a character list at its first `'='`, when there is one. -/
def splitEqAux : List Char → Option (List Char × List Char)
  | [] => none
  | c :: rest =>
    if c = '=' then some ([], rest)
    else (splitEqAux rest).map (fun q => (c :: q.1, q.2))

/-- `tokens[0].split('=', 1)`: split on the first `'='` only; without any
`'='` the whole string is the single part. -/
def splitFirstEq (s : String) : List String :=
  match splitEqAux s.data with
  | none => [s]
  | some (a, b) => [⟨a⟩, ⟨b⟩]

/-- The `for line in iterable` loop of `parse`: lex each line, skip blank
ones, accept `key value` or `key=value`, and raise `ValueError` on any
other shape.  `lineno` is the number of lines already consumed. -/
def parseLines (env : RcEnv) (pathName : String) :
    List String → Nat → List (String × String) → Except PyExc (List (String × String))
  | [], _, conf => Except.ok conf
  | line :: rest, lineno, conf =>
    match env.shlexSplit line with
    | Except.error e => Except.error e
    | Except.ok tokens =>
      if tokens.isEmpty then parseLines env pathName rest (lineno + 1) conf
      else
        let tokens :=
          if tokens.length == 1 && pyContains (tokens.headD "") '=' then
            splitFirstEq (tokens.headD "")
          else tokens
        match tokens with
        | [name, value] => parseLines env pathName rest (lineno + 1) (dictSet conf name value)
        | _ => Except.error (PyExc.valueError
            (pathName ++ ":" ++ toString (lineno + 1) ++ ": Invalid line"))

/-- `parse(path, iterable)`: both truthy raises `ValueError`; a truthy
path is read when it is a file (else the empty mapping); a truthy
iterable is parsed under the name `<cmdline>`; neither yields the empty
mapping. -/
def parse (env : RcEnv) (path : Option String) (iterable : Option (List String)) :
    Except PyExc (List (String × String)) :=
  if truthyS path && truthyL iterable then
    Except.error (PyExc.valueError "Both path and iterable are not None")
  else if truthyS path then
    let p := path.getD ""
    if env.isfile p then parseLines env p (env.fileLines p) 0 []
    else Except.ok []
  else if truthyL iterable then
    parseLines env "<cmdline>" (iterable.getD []) 0 []
  else Except.ok []

/-- `parse_safe(path, iterable)`: forward `parse`'s result, re-raise
`KeyboardInterrupt`/`SystemExit`, and turn any other exception into the
empty mapping after writing a warning line to stderr (second component). -/
def parse_safe (env : RcEnv) (path : Option String) (iterable : Option (List String)) :
    Except PyExc (List (String × String)) × List String :=
  match parse env path iterable with
  | Except.ok conf => (Except.ok conf, [])
  | Except.error e =>
    if e.isExit then (Except.error e, [])
    else (Except.ok [], ["WARNING: utils_rc: " ++ e.str ++ "\n"])

/-! ## Helper lemmas -/

/-- Stable insertion lands between a block that rejects `x` and a block
that accepts it. -/
theorem pyIns_split {α : Type} (c : α → α → Bool) (x : α) (l1 l2 : List α)
    (h1 : ∀ y ∈ l1, c x y = false) (h2 : ∀ y ∈ l2, c x y = true) :
    pyIns c x (l1 ++ l2) = l1 ++ x :: l2 := by
  induction l1 with
  | nil =>
    cases l2 with
    | nil => rfl
    | cons z zs =>
      simp [pyIns, h2 z (List.mem_cons_self z zs)]
  | cons z zs ih =>
    have hz : c x z = false := h1 z (List.mem_cons_self z zs)
    simp only [List.cons_append, pyIns, hz, Bool.false_eq_true, if_false]
    exact congrArg (z :: ·) (ih (fun y hy => h1 y (List.mem_cons_of_mem z hy)))

/-- A stable sort whose comparator is decided by a two-valued flag is the
partition: the flagged elements first, each block in input order. -/
theorem pySort_partition {α : Type} (c : α → α → Bool) (fst : α → Bool) (l : List α)
    (h : ∀ x ∈ l, ∀ y ∈ l, c x y = (fst x || !(fst y))) :
    pySort c l = l.filter fst ++ l.filter (fun a => !(fst a)) := by
  induction l with
  | nil => rfl
  | cons x xs ih =>
    have hx : ∀ y ∈ xs, c x y = (fst x || !(fst y)) := fun y hy =>
      h x (List.mem_cons_self x xs) y (List.mem_cons_of_mem x hy)
    have ihr := ih
      (fun a ha b hb => h a (List.mem_cons_of_mem x ha) b (List.mem_cons_of_mem x hb))
    simp only [pySort]
    rw [ihr]
    by_cases hf : fst x = true
    · have hall : ∀ y ∈ xs.filter fst ++ xs.filter (fun a => !(fst a)), c x y = true := by
        intro y hy
        have hyx : y ∈ xs := by
          rcases List.mem_append.mp hy with h' | h'
          · exact (List.mem_filter.mp h').1
          · exact (List.mem_filter.mp h').1
        rw [hx y hyx, hf]
        rfl
      have hins := pyIns_split c x []
        (xs.filter fst ++ xs.filter (fun a => !(fst a))) (by simp) hall
      simp only [List.nil_append] at hins
      rw [hins]
      simp [List.filter_cons, hf]
    · have hf' : fst x = false := by simpa using hf
      have h1 : ∀ y ∈ xs.filter fst, c x y = false := by
        intro y hy
        have hm := List.mem_filter.mp hy
        rw [hx y hm.1, hf', hm.2]
        rfl
      have h2 : ∀ y ∈ xs.filter (fun a => !(fst a)), c x y = true := by
        intro y hy
        have hm := List.mem_filter.mp hy
        have hfy : fst y = false := by simpa using hm.2
        rw [hx y hm.1, hf', hfy]
        rfl
      rw [pyIns_split c x _ _ h1 h2]
      simp [List.filter_cons, hf']

/-- A candidate whose key lookup succeeds has a known address family. -/
theorem key_valid_fam {a : AddrInfo} (h : (addrinfo_key a).isSome = true) :
    a.family = Fam.inet ∨ a.family = Fam.inet6 := by
  cases hf : a.family with
  | inet => exact Or.inl rfl
  | inet6 => exact Or.inr rfl
  | other n =>
    rw [addrinfo_key, hf] at h
    simp [COMPARE_AF] at h

/-- On candidate lists whose families are all known, the sort succeeds and
partitions by family: the preferred family first, each family keeping its
resolver order.  `reverse = true` puts IPv6 first, `reverse = false`
IPv4 first. -/
theorem pySortByKey_valid (reverse : Bool) (l : List AddrInfo)
    (hv : ∀ a ∈ l, (addrinfo_key a).isSome = true) :
    pySortByKey reverse l = Except.ok (if reverse then
        l.filter (fun a => decide (a.family = Fam.inet6))
          ++ l.filter (fun a => decide (a.family = Fam.inet))
      else
        l.filter (fun a => decide (a.family = Fam.inet))
          ++ l.filter (fun a => decide (a.family = Fam.inet6))) := by
  have hall : l.all (fun a => (addrinfo_key a).isSome) = true := List.all_eq_true.mpr hv
  unfold pySortByKey
  rw [if_pos hall]
  cases reverse with
  | true =>
    rw [if_pos rfl]
    have hpart := pySort_partition (sortCmp true) (fun a => decide (a.family = Fam.inet6)) l
      (by
        intro x hx y hy
        rcases key_valid_fam (hv x hx) with h4 | h6 <;>
          rcases key_valid_fam (hv y hy) with g4 | g6 <;>
            simp_all [sortCmp, keyOrDefault, addrinfo_key, COMPARE_AF])
    rw [hpart]
    have hneg : l.filter (fun a => !(decide (a.family = Fam.inet6)))
        = l.filter (fun a => decide (a.family = Fam.inet)) := by
      refine List.filter_congr ?_
      intro a ha
      rcases key_valid_fam (hv a ha) with h4 | h6 <;> simp_all
    rw [hneg]
  | false =>
    rw [if_neg (by simp)]
    have hpart := pySort_partition (sortCmp false) (fun a => decide (a.family = Fam.inet)) l
      (by
        intro x hx y hy
        rcases key_valid_fam (hv x hx) with h4 | h6 <;>
          rcases key_valid_fam (hv y hy) with g4 | g6 <;>
            simp_all [sortCmp, keyOrDefault, addrinfo_key, COMPARE_AF])
    rw [hpart]
    have hneg : l.filter (fun a => !(decide (a.family = Fam.inet)))
        = l.filter (fun a => decide (a.family = Fam.inet6)) := by
      refine List.filter_congr ?_
      intro a ha
      rcases key_valid_fam (hv a ha) with h4 | h6 <;> simp_all
    rw [hneg]

/-- A `listen` attempt never closes a descriptor. -/
theorem listenAttempt_closedFds (e : LAttempt) (fam : Fam) (s : NetState) :
    ((listenAttempt e fam s).2).closedFds = s.closedFds := by
  unfold listenAttempt
  split
  · rfl
  · split
    · rfl
    · split
      · rfl
      · split
        · rfl
        · split <;> rfl

/-- A `connect` attempt never closes a descriptor. -/
theorem connectAttempt_closedFds (e : CAttempt) (s : NetState) :
    ((connectAttempt e s).2).closedFds = s.closedFds := by
  unfold connectAttempt
  split
  · rfl
  · split <;> rfl

/-- The `listen` loop never closes a descriptor. -/
theorem listenLoop_closedFds (att : Nat → LAttempt) :
    ∀ (l : List AddrInfo) (idx : Nat) (s : NetState),
      (listenLoop att l idx s).state.closedFds = s.closedFds := by
  intro l
  induction l with
  | nil => intro idx s; rfl
  | cons a rest ih =>
    intro idx s
    have hc := listenAttempt_closedFds (att idx) a.family s
    simp only [listenLoop]
    cases hA : listenAttempt (att idx) a.family s with
    | mk r s1 =>
      rw [hA] at hc
      cases r with
      | some fd =>
        dsimp only
        rw [ih (idx + 1) s1]
        exact hc
      | none =>
        dsimp only
        rw [ih (idx + 1) s1]
        exact hc

/-- The `connect` loop never closes a descriptor. -/
theorem connectLoop_closedFds (att : Nat → CAttempt) :
    ∀ (l : List AddrInfo) (idx : Nat) (s : NetState),
      (connectLoop att l idx s).state.closedFds = s.closedFds := by
  intro l
  induction l with
  | nil => intro idx s; rfl
  | cons a rest ih =>
    intro idx s
    have hc := connectAttempt_closedFds (att idx) s
    simp only [connectLoop]
    cases hA : connectAttempt (att idx) s with
    | mk r s1 =>
      rw [hA] at hc
      cases r with
      | some fd => exact hc
      | none =>
        dsimp only
        rw [ih (idx + 1) s1]
        exact hc

/-- The `listen` loop attempts every candidate, in order. -/
theorem listenLoop_trace (att : Nat → LAttempt) :
    ∀ (l : List AddrInfo) (idx : Nat) (s : NetState),
      (listenLoop att l idx s).trace = l := by
  intro l
  induction l with
  | nil => intro idx s; rfl
  | cons a rest ih =>
    intro idx s
    simp only [listenLoop]
    cases hA : listenAttempt (att idx) a.family s with
    | mk r s1 =>
      cases r with
      | some fd =>
        dsimp only
        rw [ih (idx + 1) s1]
      | none =>
        dsimp only
        rw [ih (idx + 1) s1]

/-! ## Concrete candidates for counterexamples and witnesses -/

/-- A resolved IPv4 candidate. -/
def ainfo4 : AddrInfo := ⟨Fam.inet, 1, 6, "", "127.0.0.1"⟩

/-- A resolved IPv6 candidate. -/
def ainfo6 : AddrInfo := ⟨Fam.inet6, 1, 6, "", "::1"⟩

/-- A second resolved IPv4 candidate. -/
def ainfo4b : AddrInfo := ⟨Fam.inet, 1, 6, "", "192.0.2.1"⟩

/-- A second resolved IPv6 candidate. -/
def ainfo6b : AddrInfo := ⟨Fam.inet6, 1, 6, "", "2001:db8::1"⟩

/-! ## C1 — abandoned candidate sockets -/

/-- A `listen` run with a single IPv4 candidate whose `bind` fails: the
candidate's socket is created and then abandoned. -/
def listenEnvBindFail : ListenEnv :=
  ⟨Except.ok [ainfo4], fun _ => ⟨true, true, V6OnlyRes.ok, false, true⟩⟩

/-- C1 counterexample: in the `bind`-failure run the abandoned candidate's
socket (descriptor 0) is never closed — the closed set stays empty, so the
claimed "each abandoned socket is closed before moving on" fails here. -/
theorem listen_abandoned_not_closed_cex :
    (listen listenEnvBindFail).abandonedFds = [0] ∧
    ¬ (∀ fd ∈ (listen listenEnvBindFail).abandonedFds,
        fd ∈ (listen listenEnvBindFail).state.closedFds) := by
  constructor
  · rfl
  · decide

/-- C1 (amended): neither `listen` nor `connect` ever closes a socket; a
discarded candidate's socket stays open when the loop moves on — in every
environment the set of explicitly closed descriptors is empty at the end. -/
theorem listen_connect_never_close (le : ListenEnv) (ce : ConnectEnv) (p : Bool) :
    (listen le).state.closedFds = [] ∧ (connect ce p).state.closedFds = [] := by
  constructor
  · rcases le with ⟨gai, att⟩
    cases gai with
    | error e => rfl
    | ok l =>
      cases h : pySortByKey true l with
      | error e => simp [listen, h, initState]
      | ok sorted => simp [listen, h, listenLoop_closedFds, initState]
  · rcases ce with ⟨gai, att⟩
    cases gai with
    | error e => rfl
    | ok l =>
      cases h : pySortByKey p l with
      | error e => simp [connect, h, initState]
      | ok sorted =>
        simp only [connect, h]
        cases hr : (connectLoop att sorted 0 initState).res with
        | some fd => simp [hr, connectLoop_closedFds, initState]
        | none => simp [hr, connectLoop_closedFds, initState]

/-! ## C2 — trial order of `listen` -/

/-- A `listen` run whose endpoint resolves to one IPv4 and one IPv6
candidate (resolver order IPv4 first) with every attempt succeeding. -/
def listenEnvBoth : ListenEnv :=
  ⟨Except.ok [ainfo4, ainfo6], fun _ => ⟨true, true, V6OnlyRes.ok, true, true⟩⟩

/-- C2 counterexample: with resolved candidates `[IPv4, IPv6]`, `listen`
attempts the IPv6 candidate first (`reverse=True` sorts the larger family
key first), not IPv4 first as claimed. -/
theorem listen_not_ipv4_first_cex :
    (listen listenEnvBoth).trace.map (fun a => a.family) = [Fam.inet6, Fam.inet] ∧
    (listen listenEnvBoth).trace.map (fun a => a.family) ≠ [Fam.inet, Fam.inet6] := by
  constructor
  · rfl
  · decide

/-- C2 (amended): `listen` attempts the resolved candidates in IPv6-first
family order — the IPv6 candidates (in resolver order) followed by the
IPv4 candidates (in resolver order). -/
theorem listen_order_ipv6_first (le : ListenEnv) (l : List AddrInfo)
    (hg : le.gai = Except.ok l) (hv : ∀ a ∈ l, (addrinfo_key a).isSome = true) :
    (listen le).trace
      = l.filter (fun a => decide (a.family = Fam.inet6))
        ++ l.filter (fun a => decide (a.family = Fam.inet)) := by
  rcases le with ⟨gai, att⟩
  cases hg
  simp [listen, pySortByKey_valid true l hv, listenLoop_trace]

/-- C2 (amended) witness: the two-candidate run attempts IPv6 then IPv4. -/
theorem listen_order_ipv6_first_witness :
    (listen listenEnvBoth).trace = [ainfo6, ainfo4] := by
  rw [listen_order_ipv6_first listenEnvBoth [ainfo4, ainfo6] rfl (by decide)]
  rfl

/-! ## C3 — propagation across the boundary -/

/-- A resolved candidate of a family other than IPv4/IPv6. -/
def ainfoUnix : AddrInfo := ⟨Fam.other 1, 1, 6, "", "/run/x.sock"⟩

/-- A `listen` run whose resolver yields an unknown-family candidate. -/
def listenEnvOtherFam : ListenEnv :=
  ⟨Except.ok [ainfoUnix], fun _ => ⟨true, true, V6OnlyRes.ok, true, true⟩⟩

/-- A `connect` run whose resolver yields an unknown-family candidate. -/
def connectEnvOtherFam : ConnectEnv :=
  ⟨Except.ok [ainfoUnix], fun _ => ⟨true, 0⟩⟩

/-- C3 counterexample: a resolver output containing a family outside
`COMPARE_AF` makes both `listen` and `connect` raise an uncaught
`KeyError` — an error does cross the boundary, against the claim. -/
theorem listen_connect_raise_cex :
    (listen listenEnvOtherFam).result = Except.error PyErr.keyError ∧
    (connect connectEnvOtherFam false).result = Except.error PyErr.keyError :=
  ⟨rfl, rfl⟩

/-- C3 (amended): provided every resolved candidate's family is IPv4 or
IPv6, no error crosses the boundary: per-candidate failures are absorbed
(the result is a plain value for every attempt environment), a resolution
failure yields the empty list / `None` plus a logged error, and total
exhaustion is likewise surfaced only as empty/`None` plus a logged error. -/
theorem no_raise_for_known_families (le : ListenEnv) (ce : ConnectEnv) (p : Bool) :
    (∀ e, le.gai = Except.error e →
      (listen le).result = Except.ok []
        ∧ LogEntry.error "getaddrinfo failed" ∈ (listen le).log) ∧
    (∀ l, le.gai = Except.ok l → (∀ a ∈ l, (addrinfo_key a).isSome = true) →
      ∃ socks, (listen le).result = Except.ok socks) ∧
    ((listen le).result = Except.ok [] → ∃ m, LogEntry.error m ∈ (listen le).log) ∧
    (∀ e, ce.gai = Except.error e →
      (connect ce p).result = Except.ok none
        ∧ LogEntry.error "getaddrinfo failed" ∈ (connect ce p).log) ∧
    (∀ l, ce.gai = Except.ok l → (∀ a ∈ l, (addrinfo_key a).isSome = true) →
      ∃ r, (connect ce p).result = Except.ok r) ∧
    ((connect ce p).result = Except.ok none → ∃ m, LogEntry.error m ∈ (connect ce p).log) := by
  obtain ⟨gai, att⟩ := le
  obtain ⟨cgai, catt⟩ := ce
  refine ⟨?_, ?_, ?_, ?_, ?_, ?_⟩
  · intro e he
    cases he
    exact ⟨rfl, by simp [listen]⟩
  · intro l hl hv
    cases hl
    have hs : pySortByKey true l = Except.ok (pySort (sortCmp true) l) := by
      unfold pySortByKey
      rw [if_pos (List.all_eq_true.mpr hv)]
    exact ⟨(listenLoop att (pySort (sortCmp true) l) 0 initState).socks,
      by simp [listen, hs]⟩
  · intro hres
    cases gai with
    | error e => exact ⟨"getaddrinfo failed", by simp [listen]⟩
    | ok l =>
      cases hsort : pySortByKey true l with
      | error e => simp [listen, hsort] at hres
      | ok sorted =>
        simp only [listen, hsort] at hres ⊢
        have hempty : (listenLoop att sorted 0 initState).socks.isEmpty = true := by
          simp only [Except.ok.injEq] at hres
          simp [hres]
        refine ⟨"all listen attempts failed", ?_⟩
        simp [hempty]
  · intro e he
    cases he
    exact ⟨rfl, by simp [connect]⟩
  · intro l hl hv
    cases hl
    have hs : pySortByKey p l = Except.ok (pySort (sortCmp p) l) := by
      unfold pySortByKey
      rw [if_pos (List.all_eq_true.mpr hv)]
    cases hr : (connectLoop catt (pySort (sortCmp p) l) 0 initState).res with
    | some fd => exact ⟨some fd, by simp [connect, hs, hr]⟩
    | none => exact ⟨none, by simp [connect, hs, hr]⟩
  · intro hres
    cases cgai with
    | error e => exact ⟨"getaddrinfo failed", by simp [connect]⟩
    | ok l =>
      cases hsort : pySortByKey p l with
      | error e => simp [connect, hsort] at hres
      | ok sorted =>
        cases hr : (connectLoop catt sorted 0 initState).res with
        | some fd => simp [connect, hsort, hr] at hres
        | none =>
          refine ⟨"all connect attempts failed", ?_⟩
          simp [connect, hsort, hr]

/-- A `listen` run whose name resolution fails. -/
def listenEnvGaiFail : ListenEnv :=
  ⟨Except.error ⟨2, "Name or service not known"⟩,
   fun _ => ⟨true, true, V6OnlyRes.ok, true, true⟩⟩

/-- A `connect` run whose name resolution fails. -/
def connectEnvGaiFail : ConnectEnv :=
  ⟨Except.error ⟨2, "Name or service not known"⟩, fun _ => ⟨true, 0⟩⟩

/-- C3 (amended) witness: a failed resolution surfaces as the empty list /
`None` together with the logged error, for both calls. -/
theorem no_raise_for_known_families_witness :
    ((listen listenEnvGaiFail).result = Except.ok []
      ∧ LogEntry.error "getaddrinfo failed" ∈ (listen listenEnvGaiFail).log)
    ∧ ((connect connectEnvGaiFail false).result = Except.ok none
      ∧ LogEntry.error "getaddrinfo failed" ∈ (connect connectEnvGaiFail false).log) := by
  have h := no_raise_for_known_families listenEnvGaiFail connectEnvGaiFail false
  exact ⟨h.1 ⟨2, "Name or service not known"⟩ rfl,
    h.2.2.2.1 ⟨2, "Name or service not known"⟩ rfl⟩

/-! ## C9 — the preference key is partial -/

/-- A resolved candidate whose family (e.g. `AF_NETLINK`) is neither
`AF_INET` nor `AF_INET6`. -/
def ainfoNetlink : AddrInfo := ⟨Fam.other 16, 1, 6, "", ""⟩

/-- A `listen` run over a candidate list containing the unknown family. -/
def listenEnvNetlink : ListenEnv :=
  ⟨Except.ok [ainfo4, ainfoNetlink], fun _ => ⟨true, true, V6OnlyRes.ok, true, true⟩⟩

/-- A `connect` run over a candidate list containing the unknown family. -/
def connectEnvNetlink : ConnectEnv :=
  ⟨Except.ok [ainfo4, ainfoNetlink], fun _ => ⟨true, 0⟩⟩

/-- C9: `addrinfo_key` is total only on IPv4/IPv6 (the lookup for any
other family has no entry), and on a resolved list containing such an
entry the sorting step raises a `KeyError` that propagates out of both
`listen` and `connect`. -/
theorem addrinfo_key_keyerror_propagates :
    ainfoNetlink.family ≠ Fam.inet ∧ ainfoNetlink.family ≠ Fam.inet6 ∧
    addrinfo_key ainfoNetlink = none ∧
    (listen listenEnvNetlink).result = Except.error PyErr.keyError ∧
    (connect connectEnvNetlink true).result = Except.error PyErr.keyError :=
  ⟨by decide, by decide, rfl, rfl, rfl⟩

/-! ## C4 — which candidate `connect` returns -/

/-- Stable insertion grows the length by one. -/
theorem pyIns_length {α : Type} (c : α → α → Bool) (x : α) (l : List α) :
    (pyIns c x l).length = l.length + 1 := by
  induction l with
  | nil => rfl
  | cons y ys ih =>
    simp only [pyIns]
    split
    · rfl
    · simp [ih]

/-- The sort preserves the number of candidates. -/
theorem pySort_length {α : Type} (c : α → α → Bool) (l : List α) :
    (pySort c l).length = l.length := by
  induction l with
  | nil => rfl
  | cons x xs ih => simp [pySort, pyIns_length, ih]

/-- The `connect_ex` return codes of `n` consecutive attempts starting at
attempt position `idx`. -/
def attCodes (att : Nat → CAttempt) : Nat → Nat → List Nat
  | _, 0 => []
  | idx, n + 1 => (att idx).code :: attCodes att (idx + 1) n

/-- Specification-side description of the candidate `connect` picks: the
position of the first return code in the in-progress set. -/
def firstIdxInProgress : List Nat → Option Nat
  | [] => none
  | c :: rest =>
    if c ∈ INPROGRESS then some 0
    else (firstIdxInProgress rest).map (fun j => j + 1)

/-- There is no in-progress code exactly when every code is outside the
in-progress set. -/
theorem firstIdxInProgress_eq_none_iff (codes : List Nat) :
    firstIdxInProgress codes = none ↔ ∀ c ∈ codes, ¬ c ∈ INPROGRESS := by
  induction codes with
  | nil => simp [firstIdxInProgress]
  | cons c rest ih =>
    by_cases hc : c ∈ INPROGRESS
    · simp [firstIdxInProgress, hc]
    · simp [firstIdxInProgress, hc, ih]

/-- When every socket creation succeeds, the `connect` loop returns the
descriptor numbered by the position of the first in-progress code (the
`j`-th attempted candidate gets descriptor `nextFd + j`), and it attempts
exactly the candidates up to and including that one. -/
theorem connectLoop_all_created (att : Nat → CAttempt)
    (hc : ∀ i, (att i).createOk = true) :
    ∀ (l : List AddrInfo) (idx : Nat) (s : NetState),
      (connectLoop att l idx s).res
          = (firstIdxInProgress (attCodes att idx l.length)).map (fun j => s.nextFd + j)
        ∧ (connectLoop att l idx s).trace.length
          = (match firstIdxInProgress (attCodes att idx l.length) with
             | some j => j + 1
             | none => l.length) := by
  intro l
  induction l with
  | nil => intro idx s; exact ⟨rfl, rfl⟩
  | cons a rest ih =>
    intro idx s
    have hca := hc idx
    by_cases hin : (att idx).code ∈ INPROGRESS
    · have hA : connectAttempt (att idx) s = (some (allocFd s).1, (allocFd s).2) := by
        simp [connectAttempt, hca, hin]
      constructor
      · simp only [connectLoop, hA]
        simp [attCodes, firstIdxInProgress, hin, allocFd]
      · simp only [connectLoop, hA]
        simp [attCodes, firstIdxInProgress, hin]
    · have hA : connectAttempt (att idx) s = (none, (allocFd s).2) := by
        simp [connectAttempt, hca, hin]
      have ihs := ih (idx + 1) (allocFd s).2
      constructor
      · simp only [connectLoop, hA]
        rw [ihs.1]
        simp only [List.length_cons, attCodes, firstIdxInProgress, hin, if_false]
        cases ho : firstIdxInProgress (attCodes att (idx + 1) rest.length) with
        | none => simp
        | some j =>
          simp only [Option.map_some', allocFd]
          congr 1
          omega
      · simp only [connectLoop, hA]
        simp only [List.length_cons, attCodes, firstIdxInProgress, hin, if_false]
        cases ho : firstIdxInProgress (attCodes att (idx + 1) rest.length) with
        | none =>
          rw [ho] at ihs
          simp [ihs.2]
        | some j =>
          rw [ho] at ihs
          simp [ihs.2]

/-- C4: with every socket creation succeeding, `connect` returns the socket
of the first candidate (in preference order; the `j`-th attempted candidate
owns descriptor `j`) whose `connect_ex` code is in `INPROGRESS`, attempting
no candidate past it; it returns `None` exactly when there are zero
candidates or every candidate's code lies outside the set. -/
theorem connect_first_inprogress (ce : ConnectEnv) (p : Bool) (l : List AddrInfo)
    (hg : ce.gai = Except.ok l) (hv : ∀ a ∈ l, (addrinfo_key a).isSome = true)
    (hc : ∀ i, (ce.att i).createOk = true) :
    (connect ce p).result = Except.ok (firstIdxInProgress (attCodes ce.att 0 l.length)) ∧
    ((connect ce p).result = Except.ok none
      ↔ ∀ c ∈ attCodes ce.att 0 l.length, ¬ c ∈ INPROGRESS) ∧
    (connect ce p).trace.length
      = (match firstIdxInProgress (attCodes ce.att 0 l.length) with
         | some j => j + 1
         | none => l.length) := by
  obtain ⟨gai, att⟩ := ce
  cases hg
  have hcc : ∀ i, (att i).createOk = true := hc
  have hs : pySortByKey p l = Except.ok (pySort (sortCmp p) l) := by
    unfold pySortByKey
    rw [if_pos (List.all_eq_true.mpr hv)]
  have hloop := connectLoop_all_created att hcc (pySort (sortCmp p) l) 0 initState
  rw [pySort_length] at hloop
  have hres : (connectLoop att (pySort (sortCmp p) l) 0 initState).res
      = firstIdxInProgress (attCodes att 0 l.length) := by
    rw [hloop.1]
    cases ho : firstIdxInProgress (attCodes att 0 l.length) <;> simp [initState]
  cases ho : firstIdxInProgress (attCodes att 0 l.length) with
  | none =>
    rw [ho] at hres hloop
    refine ⟨?_, ?_, ?_⟩
    · simp [connect, hs, hres]
    · constructor
      · intro _
        exact (firstIdxInProgress_eq_none_iff _).mp ho
      · intro _
        simp [connect, hs, hres]
    · simp only [connect, hs, hres]
      exact hloop.2
  | some j =>
    rw [ho] at hres hloop
    refine ⟨?_, ?_, ?_⟩
    · simp [connect, hs, hres]
    · constructor
      · intro hcon
        simp [connect, hs, hres] at hcon
      · intro hall2
        have hn := (firstIdxInProgress_eq_none_iff (attCodes att 0 l.length)).mpr hall2
        rw [ho] at hn
        cases hn
    · simp only [connect, hs, hres]
      exact hloop.2

/-- A `connect` run where the first candidate's `connect_ex` returns
`ECONNREFUSED` (111) and the second returns `EINPROGRESS` (115). -/
def connectEnvRefusedThenOk : ConnectEnv :=
  ⟨Except.ok [ainfo4, ainfo6],
   fun i => match i with
     | 0 => ⟨true, 111⟩
     | _ => ⟨true, 115⟩⟩

/-- C4 witness: in that run `connect` returns the second candidate's
socket (descriptor 1); 111 is outside the in-progress set, 115 inside. -/
theorem connect_first_inprogress_witness :
    (connect connectEnvRefusedThenOk false).result = Except.ok (some 1) ∧
    ¬ (111 ∈ INPROGRESS) ∧ 115 ∈ INPROGRESS := by
  refine ⟨?_, by decide, by decide⟩
  have h := (connect_first_inprogress connectEnvRefusedThenOk false [ainfo4, ainfo6] rfl
    (by decide) (fun i => by cases i <;> rfl)).1
  rw [h]
  rfl

/-! ## C5 — `isconnected` outcomes -/

/-- C5: `isconnected` returns true when the peer-name query succeeds; when
the query fails with "not connected" (or the "invalid argument" platform
quirk) and the probe read also fails, it logs the read error's message and
returns false; and when the probe read succeeds after such a peer-name
failure it raises `RuntimeError('isconnected(): internal error')` instead
of returning. -/
theorem isconnected_cases (env : IsConnEnv) :
    (env.peer = none → isconnected env = (IsConnRes.ret true, [])) ∧
    (∀ err, env.peer = some err → (err.errnoV = ENOTCONN ∨ err.errnoV = EINVAL) →
      ∀ rerr, env.recv = some rerr →
        isconnected env = (IsConnRes.ret false,
          [LogEntry.error ("connect failed (reason: " ++ rerr.msg ++ ")")])) ∧
    (∀ err, env.peer = some err → (err.errnoV = ENOTCONN ∨ err.errnoV = EINVAL) →
      env.recv = none →
        (isconnected env).1
          = IsConnRes.raisedRuntimeError "isconnected(): internal error") := by
  obtain ⟨peer, rcv⟩ := env
  refine ⟨?_, ?_, ?_⟩
  · intro hp
    cases hp
    rfl
  · intro err hp he rerr hr
    cases hp
    cases hr
    simp only [isconnected]
    rw [if_neg (not_not_intro he)]
  · intro err hp he hr
    cases hp
    cases hr
    simp only [isconnected]
    rw [if_neg (not_not_intro he)]

/-- A run where `getpeername` succeeds. -/
def isConnEnvOk : IsConnEnv := ⟨none, none⟩

/-- A run where `getpeername` fails with `ENOTCONN` and the probe read
fails with `ECONNREFUSED`. -/
def isConnEnvRefused : IsConnEnv :=
  ⟨some ⟨107, "Socket is not connected"⟩, some ⟨111, "Connection refused"⟩⟩

/-- A run where `getpeername` fails with `EINVAL` but the probe read
succeeds — the impossible state. -/
def isConnEnvImpossible : IsConnEnv := ⟨some ⟨22, "Invalid argument"⟩, none⟩

/-- C5 witness: the three behaviours at concrete runs. -/
theorem isconnected_cases_witness :
    isconnected isConnEnvOk = (IsConnRes.ret true, []) ∧
    isconnected isConnEnvRefused = (IsConnRes.ret false,
      [LogEntry.error "connect failed (reason: Connection refused)"]) ∧
    (isconnected isConnEnvImpossible).1
      = IsConnRes.raisedRuntimeError "isconnected(): internal error" := by
  refine ⟨(isconnected_cases isConnEnvOk).1 rfl, ?_, ?_⟩
  · have h := (isconnected_cases isConnEnvRefused).2.1 ⟨107, "Socket is not connected"⟩
      rfl (Or.inl rfl) ⟨111, "Connection refused"⟩ rfl
    rw [h]
    decide
  · exact (isconnected_cases isConnEnvImpossible).2.2 ⟨22, "Invalid argument"⟩ rfl
      (Or.inr rfl) rfl

/-! ## C6 — the connect path's preference order -/

/-- C6: the ordering `connect` applies (`addrinfo.sort(key=addrinfo_key,
reverse=prefer_ipv6)`, modelled by `pySortByKey prefer_ipv6`) is a stable
sort keyed only on the address family: IPv6 candidates come first iff
`prefer_ipv6`, else IPv4 first, and each family keeps its resolver-given
relative order (the partition into the two filtered sublists). -/
theorem connect_order_stable_by_family (l : List AddrInfo) (prefer_ipv6 : Bool)
    (hv : ∀ a ∈ l, (addrinfo_key a).isSome = true) :
    pySortByKey prefer_ipv6 l = Except.ok (if prefer_ipv6 then
        l.filter (fun a => decide (a.family = Fam.inet6))
          ++ l.filter (fun a => decide (a.family = Fam.inet))
      else
        l.filter (fun a => decide (a.family = Fam.inet))
          ++ l.filter (fun a => decide (a.family = Fam.inet6))) :=
  pySortByKey_valid prefer_ipv6 l hv

/-- C6 witness: families `[IPv4, IPv6, IPv4, IPv6]` with `prefer_ipv6=true`
sort to `[IPv6, IPv6, IPv4, IPv4]`, each family keeping its input order
(the two distinct IPv6 records stay in order, likewise the IPv4 ones). -/
theorem connect_order_stable_by_family_witness :
    pySortByKey true [ainfo4, ainfo6, ainfo4b, ainfo6b]
      = Except.ok [ainfo6, ainfo6b, ainfo4, ainfo4b] ∧
    [ainfo6, ainfo6b, ainfo4, ainfo4b].map (fun a => a.family)
      = [Fam.inet6, Fam.inet6, Fam.inet, Fam.inet] := by
  refine ⟨?_, by decide⟩
  rw [connect_order_stable_by_family [ainfo4, ainfo6, ainfo4b, ainfo6b] true (by decide)]
  rfl

/-! ## C7 — IPv4-mapped prefix stripping -/

/-- C7: the normalization strips a leading `::ffff:` (7 characters, exposing
the embedded IPv4 literal); otherwise it strips a leading `::` unless the
address is exactly the loopback `::1`, which is returned unchanged;
addresses with neither prefix are returned unchanged. -/
theorem strip_ipv4mapped_cases (s : String) :
    (pyStartsWith s "::ffff:" = true → strip_ipv4mapped_addr s = pyDrop s 7) ∧
    (pyStartsWith s "::ffff:" = false → pyStartsWith s "::" = true → s ≠ "::1" →
      strip_ipv4mapped_addr s = pyDrop s 2) ∧
    (pyStartsWith s "::ffff:" = false → pyStartsWith s "::" = false →
      strip_ipv4mapped_addr s = s) ∧
    strip_ipv4mapped_addr "::1" = "::1" ∧
    strip_ipv4mapped_addr "::ffff:192.0.2.1" = "192.0.2.1" ∧
    strip_ipv4mapped_addr "::192.0.2.1" = "192.0.2.1" := by
  refine ⟨?_, ?_, ?_, by decide, by decide, by decide⟩
  · intro h
    simp [strip_ipv4mapped_addr, h]
  · intro h1 h2 h3
    simp [strip_ipv4mapped_addr, h1, h2, h3]
  · intro h1 h2
    simp [strip_ipv4mapped_addr, h1, h2]

/-- C7 witness: the branch conditions and conclusions at concrete
addresses. -/
theorem strip_ipv4mapped_cases_witness :
    (pyStartsWith "::ffff:10.0.0.1" "::ffff:" = true) ∧
    strip_ipv4mapped_addr "::ffff:10.0.0.1" = pyDrop "::ffff:10.0.0.1" 7 ∧
    strip_ipv4mapped_addr "::10.0.0.1" = pyDrop "::10.0.0.1" 2 := by
  refine ⟨by decide, (strip_ipv4mapped_cases "::ffff:10.0.0.1").1 (by decide), ?_⟩
  exact (strip_ipv4mapped_cases "::10.0.0.1").2.1 (by decide) (by decide) (by decide)

/-! ## C8 — endpoint formatting -/

/-- C8: `format_epnt` renders `[host]:port` when the host contains a colon,
`host:port` when it does not, and `:port` for the empty host. -/
theorem format_epnt_cases (a : String) (p : Nat) :
    (pyContains a ':' = true → format_epnt (a, p) = "[" ++ a ++ "]:" ++ toString p) ∧
    (pyContains a ':' = false → format_epnt (a, p) = a ++ ":" ++ toString p) ∧
    format_epnt ("", p) = ":" ++ toString p := by
  refine ⟨?_, ?_, ?_⟩
  · intro h
    simp only [format_epnt, h, if_true]
    rw [String.append_assoc ("[" ++ a) "]" ":"]
    rfl
  · intro h
    simp [format_epnt, h]
  · have h0 : pyContains "" ':' = false := rfl
    simp only [format_epnt, h0, Bool.false_eq_true, if_false]
    rfl

/-- C8 witness: a literal IPv6 host is bracketed; a plain host and the
empty host are not. -/
theorem format_epnt_cases_witness :
    (pyContains "::1" ':' = true) ∧ format_epnt ("::1", 8080) = "[::1]:8080" ∧
    format_epnt ("10.0.0.1", 8080) = "10.0.0.1:8080" ∧ format_epnt ("", 80) = ":80" := by
  refine ⟨by decide, ?_, ?_, ?_⟩
  · rw [(format_epnt_cases "::1" 8080).1 (by decide)]
    decide
  · rw [(format_epnt_cases "10.0.0.1" 8080).2.1 (by decide)]
    decide
  · rw [(format_epnt_cases "" 80).2.2]
    decide

/-! ## C10 — `parse_safe` absorbs `parse`'s errors -/

/-- C10: `parse_safe` returns `parse`'s mapping when `parse` succeeds, and
turns any error other than `KeyboardInterrupt`/`SystemExit` into the empty
mapping after writing the warning line to stderr; in particular, calling
with both a (truthy) path and a (truthy) iterable makes `parse` raise
`ValueError` while `parse_safe` returns the empty mapping. -/
theorem parse_safe_absorbs_errors (env : RcEnv) (path : Option String)
    (iterable : Option (List String)) :
    (∀ d, parse env path iterable = Except.ok d →
      parse_safe env path iterable = (Except.ok d, [])) ∧
    (∀ e, parse env path iterable = Except.error e → e.isExit = false →
      parse_safe env path iterable
        = (Except.ok [], ["WARNING: utils_rc: " ++ e.str ++ "\n"])) ∧
    (∀ p i, p ≠ "" → i ≠ [] →
      parse env (some p) (some i)
          = Except.error (PyExc.valueError "Both path and iterable are not None")
        ∧ parse_safe env (some p) (some i)
          = (Except.ok [],
             ["WARNING: utils_rc: Both path and iterable are not None\n"])) := by
  refine ⟨?_, ?_, ?_⟩
  · intro d hd
    simp [parse_safe, hd]
  · intro e he hx
    simp [parse_safe, he, hx]
  · intro p i hp hi
    have h1 : truthyS (some p) = true := by simp [truthyS, hp]
    have h2 : truthyL (some i) = true := by simp [truthyL, hi]
    have hboth : (truthyS (some p) && truthyL (some i)) = true := by
      rw [h1, h2]
      rfl
    have hparse : parse env (some p) (some i)
        = Except.error (PyExc.valueError "Both path and iterable are not None") := by
      unfold parse
      rw [if_pos hboth]
    refine ⟨hparse, ?_⟩
    simp [parse_safe, hparse, PyExc.isExit, PyExc.str]

/-- A concrete parser environment: no file exists and `shlex.split` splits
on single spaces. -/
def rcEnvPlain : RcEnv :=
  ⟨fun _ => false, fun _ => [], fun s => Except.ok (s.splitOn " ")⟩

/-- C10 witness: with both arguments set, `parse` raises the `ValueError`
and `parse_safe` yields the empty mapping plus the stderr warning. -/
theorem parse_safe_absorbs_errors_witness :
    parse rcEnvPlain (some "neubot.conf") (some ["key=value"])
        = Except.error (PyExc.valueError "Both path and iterable are not None")
      ∧ parse_safe rcEnvPlain (some "neubot.conf") (some ["key=value"])
        = (Except.ok [],
           ["WARNING: utils_rc: Both path and iterable are not None\n"]) := by
  exact (parse_safe_absorbs_errors rcEnvPlain (some "neubot.conf")
    (some ["key=value"])).2.2 "neubot.conf" ["key=value"]
    (by decide) (by simp)

end NeubotRuntime
